import Mathlib

/-!
Verification of the `yk-channel` repository (src/src/mpsc.rs), an unbounded
multi-producer single-consumer channel.

The shared state guarded by the mutex is `Inner { queue, senders,
receiver_alive }`; the `Receiver` additionally owns a private, unsynchronized
`buffer`.  Because every access to `Inner` happens under the single mutex, an
execution of the channel is a sequence of atomic operations on `Inner` (plus
the receiver-local buffer); we embed each operation as a pure function and
study traces of such operations.

The condition-variable notification is modelled by a `Bool` component of the
result of `send` ("was `notify_one` called"), and, for `Sender`'s `Drop`
implementation, additionally by a small list of micro-actions recording the
order of lock release and notification inside the destructor body.

`Receiver::receive`'s blocking wait is modelled non-blockingly: the branch
that would `wait` on the condition variable returns the `wouldBlock` outcome
and leaves the state unchanged; a blocked call in the real program simply
re-runs the loop body after being woken, which in the trace model is a later
`receive` event.
-/

namespace Mpsc

/-- The mutex-guarded shared state of the channel: `struct Inner<T>` in the
source, with `queue : VecDeque<T>` embedded as a `List` (front = head),
`senders : usize` as `Nat`, and `receiver_alive : bool` as `Bool`. -/
structure Inner (T : Type) where
  queue : List T
  senders : Nat
  receiver_alive : Bool
deriving DecidableEq, Repr

/-- Result of `Sender::send`, embedding Rust's `Result<(), T>`:
`ok` is `Ok(())`, `err value` is `Err(value)` returning the value
to the caller. -/
inductive SendResult (T : Type) where
  | ok : SendResult T
  | err (value : T) : SendResult T
deriving DecidableEq, Repr

/-- Result of one pass of `Receiver::receive`'s body: `value v` embeds
`Some(v)`, `closed` embeds `None` (the closed sentinel), and `wouldBlock`
marks the branch that waits on the condition variable. -/
inductive ReceiveResult (T : Type) where
  | value (v : T) : ReceiveResult T
  | closed : ReceiveResult T
  | wouldBlock : ReceiveResult T
deriving DecidableEq, Repr

/-- `Sender::send`: lock; if `receiver_alive` is false return `Err(value)`
without touching the state and without notifying; otherwise push the value to
the back of the queue, unlock, and call `notify_one`.  The `Bool` component
records whether `notify_one` was called. -/
def Sender.send (inner : Inner T) (value : T) : Inner T × SendResult T × Bool :=
  if !inner.receiver_alive then
    (inner, SendResult.err value, false)
  else
    ({ inner with queue := inner.queue ++ [value] }, SendResult.ok, true)

/-- `Clone for Sender`: lock, increment `senders`, unlock.  The new handle
shares the same state, so only the count changes. -/
def Sender.clone (inner : Inner T) : Inner T :=
  { inner with senders := inner.senders + 1 }

/-- `Drop for Sender`: lock, decrement `senders`, record `was_last` and
`receiver_alive`, unlock, and notify the condition variable iff
`was_last && receiver_alive`.  The `Bool` component records whether
`notify_one` was called. -/
def Sender.drop (inner : Inner T) : Inner T × Bool :=
  let senders := inner.senders - 1
  let was_last := senders == 0
  ({ inner with senders := senders }, was_last && inner.receiver_alive)

/-- Micro-actions of the body of `Drop for Sender`, used to reason about
the order of lock release and notification. -/
inductive DropAction where
  | acquireLock : DropAction
  | decrementSenders : DropAction
  | releaseLock : DropAction
  | notifyOne : DropAction
deriving DecidableEq, BEq, Repr

/-- The sequence of micro-actions performed by `Drop for Sender`, in source
order: `lock()`, `inner.senders -= 1`, `drop(inner)` (releasing the lock),
and then, only if this was the last sender and the receiver is alive,
`notify_one()`. -/
def Sender.dropActions (inner : Inner T) : List DropAction :=
  [DropAction.acquireLock, DropAction.decrementSenders, DropAction.releaseLock]
    ++ (if (inner.senders - 1 == 0) && inner.receiver_alive then
          [DropAction.notifyOne]
        else [])

/-- `Drop for Receiver`: lock, set `receiver_alive` to false, unlock. -/
def Receiver.drop (inner : Inner T) : Inner T :=
  { inner with receiver_alive := false }

/-- One pass of the locked loop body of `Receiver::receive`: pop the queue's
front; on `Some(value)`, if the queue is still non-empty, `mem::swap` the
queue with the receiver's buffer, and return the value; on `None`, return the
closed sentinel if `senders == 0` and otherwise wait (`wouldBlock`).
Arguments and results carry the receiver's private buffer explicitly. -/
def Receiver.receiveLocked (inner : Inner T) (buffer : List T) :
    Inner T × List T × ReceiveResult T :=
  match inner.queue with
  | value :: rest =>
      if !rest.isEmpty then
        ({ inner with queue := buffer }, rest, ReceiveResult.value value)
      else
        ({ inner with queue := rest }, buffer, ReceiveResult.value value)
  | [] =>
      if inner.senders == 0 then
        (inner, buffer, ReceiveResult.closed)
      else
        (inner, buffer, ReceiveResult.wouldBlock)

/-- `Receiver::receive`: first try to pop the private buffer without taking
the lock; only if the buffer is empty, take the lock and run the loop body.
The buffer passed to the locked path is the (empty) receiver buffer. -/
def Receiver.receive (inner : Inner T) (buffer : List T) :
    Inner T × List T × ReceiveResult T :=
  match buffer with
  | value :: rest => (inner, rest, ReceiveResult.value value)
  | [] => Receiver.receiveLocked inner []

/-- `unbounded_channel`: the factory.  It returns the freshly initialized
shared state (`queue` empty, `senders = 1`, `receiver_alive = true`) together
with the receiver's freshly created empty private buffer. -/
def unbounded_channel (T : Type) : Inner T × List T :=
  ({ queue := [], senders := 1, receiver_alive := true }, [])

/-- Modelled from the spec: the batched transfer described as moving "the
entire remaining queue into the private buffer in one operation" — the spec's
wording of the step that the source implements with `mem::swap`.  Identical
to `Receiver.receive` except that the transfer branch empties the queue
outright instead of swapping it with the buffer. -/
def Receiver.receiveMove (inner : Inner T) (buffer : List T) :
    Inner T × List T × ReceiveResult T :=
  match buffer with
  | value :: rest => (inner, rest, ReceiveResult.value value)
  | [] =>
      match inner.queue with
      | value :: rest =>
          if !rest.isEmpty then
            ({ inner with queue := [] }, rest, ReceiveResult.value value)
          else
            ({ inner with queue := rest }, [], ReceiveResult.value value)
      | [] =>
          if inner.senders == 0 then
            (inner, [], ReceiveResult.closed)
          else
            (inner, [], ReceiveResult.wouldBlock)

/-- Shared helper: on an empty buffer, empty queue and zero senders,
`receive` returns the closed sentinel and changes nothing. -/
theorem receive_closed_state (inner : Inner T) (hq : inner.queue = [])
    (hs : inner.senders = 0) :
    Receiver.receive inner [] = (inner, [], ReceiveResult.closed) := by
  simp [Receiver.receive, Receiver.receiveLocked, hq, hs]

/-- C2: `send value` on a state whose `receiver_alive` flag is false fails,
returning exactly the original value and leaving the state untouched (and not
notifying); on a state whose receiver is alive it appends the value to the
tail of the queue and succeeds.  The flag is the only thing `send`
branches on. -/
theorem send_spec (inner : Inner T) (value : T) :
    Sender.send inner value =
      if inner.receiver_alive then
        ({ inner with queue := inner.queue ++ [value] }, SendResult.ok, true)
      else
        (inner, SendResult.err value, false) := by
  cases h : inner.receiver_alive <;> simp [Sender.send, h]

/-- C3: a `receive` whose private buffer is empty, whose shared queue is
empty and with `sender_count = 0` returns the closed sentinel immediately
(the `wouldBlock` branch is not taken) and leaves the state unchanged. -/
theorem receive_closed (inner : Inner T) (buffer : List T)
    (hb : buffer = []) (hq : inner.queue = []) (hs : inner.senders = 0) :
    Receiver.receive inner buffer = (inner, buffer, ReceiveResult.closed) := by
  subst hb
  exact receive_closed_state inner hq hs

/-- Witness for C3 at a concrete closed state. -/
theorem receive_closed_witness :
    Receiver.receive (Inner.mk ([] : List Nat) 0 true) [] =
      (Inner.mk ([] : List Nat) 0 true, [], ReceiveResult.closed) :=
  receive_closed (Inner.mk ([] : List Nat) 0 true) [] rfl rfl rfl

/-- C6: a `receive` that reaches the locked path (empty private buffer) and
finds the queue non-empty pops and returns the queue's front, leaves the
shared queue empty, and leaves the private buffer holding exactly the
remaining elements in their original order (when there are none, the buffer
stays empty). -/
theorem receive_batch (inner : Inner T) (v : T) (rest : List T)
    (hq : inner.queue = v :: rest) :
    Receiver.receive inner [] =
      ({ inner with queue := [] }, rest, ReceiveResult.value v) := by
  cases rest with
  | nil => simp [Receiver.receive, Receiver.receiveLocked, hq]
  | cons w ws => simp [Receiver.receive, Receiver.receiveLocked, hq]

/-- Witness for C6 at a concrete three-element queue. -/
theorem receive_batch_witness :
    Receiver.receive (Inner.mk [1, 2, 3] 1 true) [] =
      (Inner.mk ([] : List Nat) 1 true, [2, 3], ReceiveResult.value 1) :=
  receive_batch (Inner.mk [1, 2, 3] 1 true) 1 [2, 3] rfl

/-- C7: the factory always succeeds (it is a total function) and returns the
freshly initialized shared state with `sender_count = 1`,
`receiver_alive = true`, an empty queue, and an empty private buffer. -/
theorem unbounded_channel_spec (T : Type) :
    (unbounded_channel T).1.senders = 1
    ∧ (unbounded_channel T).1.receiver_alive = true
    ∧ (unbounded_channel T).1.queue = []
    ∧ (unbounded_channel T).2 = [] :=
  ⟨rfl, rfl, rfl, rfl⟩

/-- C8: a failing `send` (receiver not alive) is side-effect free: the state
it returns is exactly the input state (same queue, same `senders`, same
flag), the value comes back in the error, and no notification is issued. -/
theorem send_fail_no_effect (inner : Inner T) (value : T)
    (h : inner.receiver_alive = false) :
    Sender.send inner value = (inner, SendResult.err value, false) := by
  simp [Sender.send, h]

/-- Witness for C8 at a concrete dead-receiver state. -/
theorem send_fail_no_effect_witness :
    Sender.send (Inner.mk [9] 2 false) 5 =
      (Inner.mk [9] 2 false, SendResult.err 5, false) :=
  send_fail_no_effect (Inner.mk [9] 2 false) 5 rfl

/-- C9: the real `receive` (which implements the batched transfer as a
`mem::swap` of queue and buffer) coincides, on every state, with the variant
that moves the queue into the buffer as the spec describes: the locked path
is only ever entered with an empty private buffer, so the swap can never push
stale buffer elements back into the shared queue. -/
theorem receive_swap_is_move (inner : Inner T) (buffer : List T) :
    Receiver.receive inner buffer = Receiver.receiveMove inner buffer := by
  cases buffer with
  | cons v rest => simp [Receiver.receive, Receiver.receiveMove]
  | nil =>
      cases hq : inner.queue with
      | nil => simp [Receiver.receive, Receiver.receiveLocked,
          Receiver.receiveMove, hq]
      | cons v rest =>
          cases rest with
          | nil => simp [Receiver.receive, Receiver.receiveLocked,
              Receiver.receiveMove, hq]
          | cons w ws => simp [Receiver.receive, Receiver.receiveLocked,
              Receiver.receiveMove, hq]

/-- C10: cloning a Sender is total and increments `sender_count` by exactly
one without consulting `receiver_alive`; in particular after the Receiver is
destroyed a clone is still produced, and a `send` through the cloned handle
fails normally, returning the value. -/
theorem clone_after_receiver_drop (inner : Inner T) (value : T)
    (h : inner.receiver_alive = false) :
    (Sender.clone inner).senders = inner.senders + 1
    ∧ (Sender.clone inner).queue = inner.queue
    ∧ Sender.send (Sender.clone inner) value =
        (Sender.clone inner, SendResult.err value, false) := by
  refine ⟨rfl, rfl, ?_⟩
  simp [Sender.send, Sender.clone, h]

/-- Witness for C10: clone a sender of a channel whose receiver was dropped,
then fail to send through the clone. -/
theorem clone_after_receiver_drop_witness :
    ((Inner.mk ([] : List Nat) 1 false).receiver_alive = false)
    ∧ ((Sender.clone (Inner.mk ([] : List Nat) 1 false)).senders
          = (Inner.mk ([] : List Nat) 1 false).senders + 1
       ∧ (Sender.clone (Inner.mk ([] : List Nat) 1 false)).queue
          = (Inner.mk ([] : List Nat) 1 false).queue
       ∧ Sender.send (Sender.clone (Inner.mk ([] : List Nat) 1 false)) 7 =
          (Sender.clone (Inner.mk ([] : List Nat) 1 false),
            SendResult.err 7, false)) :=
  ⟨rfl, clone_after_receiver_drop (Inner.mk ([] : List Nat) 1 false) 7 rfl⟩

/-- A whole-system configuration for trace reasoning: the shared state, the
receiver's private buffer, and two ghost histories — the values successfully
pushed into the shared queue (in push order) and the values returned by
`receive` (in return order) — plus whether the closed sentinel has been
observed. -/
structure Sys (T : Type) where
  inner : Inner T
  buffer : List T
  sent : List T
  received : List T
  closedSeen : Bool
deriving DecidableEq, Repr

/-- The atomic operations of an execution.  Because all shared-state access
holds the one mutex, any concurrent execution of the program is some
interleaving of these. -/
inductive Event (T : Type) where
  | send (value : T) : Event T
  | cloneSender : Event T
  | dropSender : Event T
  | dropReceiver : Event T
  | receive : Event T
deriving DecidableEq, Repr

/-- Effect of one event on a system configuration. -/
def step (s : Sys T) : Event T → Sys T
  | Event.send value =>
      let r := Sender.send s.inner value
      { s with
        inner := r.1
        sent := match r.2.1 with
                | SendResult.ok => s.sent ++ [value]
                | SendResult.err _ => s.sent }
  | Event.cloneSender => { s with inner := Sender.clone s.inner }
  | Event.dropSender => { s with inner := (Sender.drop s.inner).1 }
  | Event.dropReceiver => { s with inner := Receiver.drop s.inner }
  | Event.receive =>
      let r := Receiver.receive s.inner s.buffer
      { s with
        inner := r.1
        buffer := r.2.1
        received := match r.2.2 with
                    | ReceiveResult.value v => s.received ++ [v]
                    | _ => s.received
        closedSeen := match r.2.2 with
                      | ReceiveResult.closed => true
                      | _ => s.closedSeen }

/-- An event is enabled when a handle able to perform it exists: sender
operations (`send`, `clone`, sender destruction) need a live Sender handle
(`senders ≠ 0`), receiver operations need the live Receiver handle. -/
def enabled (s : Sys T) : Event T → Bool
  | Event.send _ => s.inner.senders != 0
  | Event.cloneSender => s.inner.senders != 0
  | Event.dropSender => s.inner.senders != 0
  | Event.dropReceiver => s.inner.receiver_alive
  | Event.receive => s.inner.receiver_alive

/-- Run a trace of events from a configuration. -/
def run (s : Sys T) : List (Event T) → Sys T
  | [] => s
  | e :: es => run (step s e) es

/-- A trace is valid when every event is enabled in the configuration in
which it fires. -/
def validTrace (s : Sys T) : List (Event T) → Bool
  | [] => true
  | e :: es => enabled s e && validTrace (step s e) es

/-- Initial configuration produced by `unbounded_channel`: fresh shared
state, empty buffer, empty histories. -/
def init (T : Type) : Sys T :=
  { inner := (unbounded_channel T).1
    buffer := (unbounded_channel T).2
    sent := []
    received := []
    closedSeen := false }

/-- The FIFO invariant: the values already returned by `receive`, followed by
the values pending in the private buffer and then those pending in the shared
queue, are exactly the successfully sent values in push order. -/
def FifoInv (s : Sys T) : Prop :=
  s.received ++ s.buffer ++ s.inner.queue = s.sent

/-- The closure invariant: once the closed sentinel has been observed, there
are no live senders and no pending values anywhere. -/
def ClosedInv (s : Sys T) : Prop :=
  s.closedSeen = true → s.inner.senders = 0 ∧ s.inner.queue = [] ∧ s.buffer = []

/-- One step preserves the FIFO invariant (no enabledness needed). -/
theorem FifoInv_step (s : Sys T) (e : Event T) (h : FifoInv s) :
    FifoInv (step s e) := by
  cases e with
  | send value =>
      by_cases ha : s.inner.receiver_alive
      · simp only [FifoInv, step, Sender.send, ha] at h ⊢
        simp [← h]
      · simp only [FifoInv, step, Sender.send, ha] at h ⊢
        simpa using h
  | cloneSender => simpa [FifoInv, step, Sender.clone] using h
  | dropSender => simpa [FifoInv, step, Sender.drop] using h
  | dropReceiver => simpa [FifoInv, step, Receiver.drop] using h
  | receive =>
      cases hb : s.buffer with
      | cons v rest =>
          simp only [FifoInv, step, Receiver.receive, hb] at h ⊢
          simpa using h
      | nil =>
          cases hq : s.inner.queue with
          | nil =>
              by_cases hs : s.inner.senders = 0 <;>
                simp_all [FifoInv, step, Receiver.receive, Receiver.receiveLocked]
          | cons v rest =>
              cases rest with
              | nil =>
                  simp only [FifoInv, step, Receiver.receive,
                    Receiver.receiveLocked, hb, hq] at h ⊢
                  simp_all
              | cons w ws =>
                  simp only [FifoInv, step, Receiver.receive,
                    Receiver.receiveLocked, hb, hq] at h ⊢
                  simp_all

/-- One enabled step preserves the closure invariant. -/
theorem ClosedInv_step (s : Sys T) (e : Event T) (he : enabled s e = true)
    (h : ClosedInv s) : ClosedInv (step s e) := by
  cases e with
  | send value =>
      intro hc
      simp only [enabled, bne_iff_ne, ne_eq] at he
      simp only [step] at hc
      obtain ⟨h1, h2, h3⟩ := h hc
      exact absurd h1 he
  | cloneSender =>
      intro hc
      simp only [enabled, bne_iff_ne, ne_eq] at he
      simp only [step] at hc
      obtain ⟨h1, _, _⟩ := h hc
      exact absurd h1 he
  | dropSender =>
      intro hc
      simp only [enabled, bne_iff_ne, ne_eq] at he
      simp only [step] at hc
      obtain ⟨h1, _, _⟩ := h hc
      exact absurd h1 he
  | dropReceiver =>
      intro hc
      simp only [step] at hc ⊢
      simpa [Receiver.drop] using h hc
  | receive =>
      intro hc
      cases hb : s.buffer with
      | cons v rest =>
          simp only [step, Receiver.receive, hb] at hc ⊢
          obtain ⟨h1, h2, h3⟩ := h hc
          simp [hb] at h3
      | nil =>
          cases hq : s.inner.queue with
          | nil =>
              by_cases hs : s.inner.senders = 0 <;>
                simp_all [step, Receiver.receive, Receiver.receiveLocked,
                  ClosedInv]
          | cons v rest =>
              cases rest with
              | nil =>
                  simp [step, Receiver.receive, Receiver.receiveLocked,
                    hb, hq] at hc
                  exact absurd (h hc).2.1 (by simp [hq])
              | cons w ws =>
                  simp [step, Receiver.receive, Receiver.receiveLocked,
                    hb, hq] at hc
                  exact absurd (h hc).2.1 (by simp [hq])

/-- Running a valid trace preserves both invariants. -/
theorem invariants_run (s : Sys T) (tr : List (Event T))
    (hv : validTrace s tr = true) (h1 : FifoInv s) (h2 : ClosedInv s) :
    FifoInv (run s tr) ∧ ClosedInv (run s tr) := by
  induction tr generalizing s with
  | nil => exact ⟨h1, h2⟩
  | cons e es ih =>
      simp only [validTrace, Bool.and_eq_true] at hv
      exact ih (step s e) hv.2 (FifoInv_step s e h1)
        (ClosedInv_step s e hv.1 h2)

/-- The initial configuration satisfies both invariants. -/
theorem invariants_init (T : Type) : FifoInv (init T) ∧ ClosedInv (init T) :=
  ⟨rfl, by intro hc; simp [init] at hc⟩

/-- C1: along every valid trace from a fresh channel, the values returned by
`receive`, followed by the pending buffer and queue contents, equal the
successfully sent values in push order — every `receive` yields the oldest
not-yet-delivered value — and once the closed sentinel has been observed, the
delivered sequence is exactly the sent sequence. -/
theorem fifo_delivery (T : Type) (tr : List (Event T))
    (hv : validTrace (init T) tr = true) :
    (run (init T) tr).received ++ (run (init T) tr).buffer
        ++ (run (init T) tr).inner.queue = (run (init T) tr).sent
    ∧ ((run (init T) tr).closedSeen = true →
        (run (init T) tr).received = (run (init T) tr).sent) := by
  obtain ⟨h1, h2⟩ :=
    invariants_run (init T) tr hv (invariants_init T).1 (invariants_init T).2
  refine ⟨h1, fun hc => ?_⟩
  obtain ⟨-, hq, hb⟩ := h2 hc
  simpa [FifoInv, hq, hb] using h1

/-- Witness for C1: a concrete valid trace sending 5 and 6, receiving three
times (the third observes closure after the sender is dropped). -/
theorem fifo_delivery_witness :
    (run (init Nat) [Event.send 5, Event.send 6, Event.receive,
        Event.receive, Event.dropSender, Event.receive]).received
      ++ (run (init Nat) [Event.send 5, Event.send 6, Event.receive,
        Event.receive, Event.dropSender, Event.receive]).buffer
      ++ (run (init Nat) [Event.send 5, Event.send 6, Event.receive,
        Event.receive, Event.dropSender, Event.receive]).inner.queue
      = (run (init Nat) [Event.send 5, Event.send 6, Event.receive,
        Event.receive, Event.dropSender, Event.receive]).sent
    ∧ ((run (init Nat) [Event.send 5, Event.send 6, Event.receive,
        Event.receive, Event.dropSender, Event.receive]).closedSeen = true →
        (run (init Nat) [Event.send 5, Event.send 6, Event.receive,
          Event.receive, Event.dropSender, Event.receive]).received
          = (run (init Nat) [Event.send 5, Event.send 6, Event.receive,
            Event.receive, Event.dropSender, Event.receive]).sent) :=
  fifo_delivery Nat [Event.send 5, Event.send 6, Event.receive,
    Event.receive, Event.dropSender, Event.receive] (by decide)

/-- Running an appended trace runs the pieces in order. -/
theorem run_append (s : Sys T) (tr tr' : List (Event T)) :
    run s (tr ++ tr') = run (run s tr) tr' := by
  induction tr generalizing s with
  | nil => rfl
  | cons e es ih => simp [run, ih]

/-- Validity of an appended trace splits into validity of the pieces. -/
theorem validTrace_append (s : Sys T) (tr tr' : List (Event T)) :
    validTrace s (tr ++ tr')
      = (validTrace s tr && validTrace (run s tr) tr') := by
  induction tr generalizing s with
  | nil => simp [validTrace, run]
  | cons e es ih => simp [validTrace, run, ih, Bool.and_assoc]

/-- The fully closed configuration: the sentinel has been observed, no live
senders remain, and no value is pending anywhere. -/
def ClosedNow (s : Sys T) : Prop :=
  s.closedSeen = true ∧ s.inner.senders = 0 ∧ s.inner.queue = []
    ∧ s.buffer = []

/-- One enabled step out of a fully closed configuration stays fully closed:
sender events are disabled (`senders = 0`), and `receive` and receiver
destruction change nothing relevant. -/
theorem ClosedNow_step (s : Sys T) (e : Event T) (he : enabled s e = true)
    (h : ClosedNow s) : ClosedNow (step s e) := by
  obtain ⟨hc, hs, hq, hb⟩ := h
  cases e with
  | send value =>
      simp only [enabled, bne_iff_ne, ne_eq] at he
      exact absurd hs he
  | cloneSender =>
      simp only [enabled, bne_iff_ne, ne_eq] at he
      exact absurd hs he
  | dropSender =>
      simp only [enabled, bne_iff_ne, ne_eq] at he
      exact absurd hs he
  | dropReceiver => exact ⟨hc, hs, hq, hb⟩
  | receive =>
      simp [ClosedNow, step, Receiver.receive, Receiver.receiveLocked,
        hb, hq, hs, hc]

/-- A valid trace out of a fully closed configuration stays fully closed. -/
theorem ClosedNow_run (s : Sys T) (tr : List (Event T))
    (hv : validTrace s tr = true) (h : ClosedNow s) : ClosedNow (run s tr) := by
  induction tr generalizing s with
  | nil => exact h
  | cons e es ih =>
      simp only [validTrace, Bool.and_eq_true] at hv
      exact ih (step s e) hv.2 (ClosedNow_step s e hv.1 h)

/-- C4: the closed outcome is terminal.  Along any valid trace, once some
point has observed the closed sentinel, every later point still has it
observed, `sender_count` stays 0 (no event can make it positive again, since
cloning needs a live sender), nothing is pending, and the next `receive`
again returns the closed sentinel. -/
theorem closed_terminal (T : Type) (tr tr' : List (Event T))
    (hv : validTrace (init T) (tr ++ tr') = true)
    (hc : (run (init T) tr).closedSeen = true) :
    (run (init T) (tr ++ tr')).closedSeen = true
    ∧ (run (init T) (tr ++ tr')).inner.senders = 0
    ∧ (run (init T) (tr ++ tr')).buffer = []
    ∧ (run (init T) (tr ++ tr')).inner.queue = []
    ∧ Receiver.receive (run (init T) (tr ++ tr')).inner
        (run (init T) (tr ++ tr')).buffer
        = ((run (init T) (tr ++ tr')).inner,
           (run (init T) (tr ++ tr')).buffer, ReceiveResult.closed) := by
  rw [validTrace_append, Bool.and_eq_true] at hv
  have hclosed : ClosedNow (run (init T) tr) := by
    obtain ⟨-, h2⟩ :=
      invariants_run (init T) tr hv.1 (invariants_init T).1
        (invariants_init T).2
    obtain ⟨hs, hq, hb⟩ := h2 hc
    exact ⟨hc, hs, hq, hb⟩
  have hfinal : ClosedNow (run (init T) (tr ++ tr')) := by
    rw [run_append]
    exact ClosedNow_run (run (init T) tr) tr' hv.2 hclosed
  obtain ⟨hc', hs', hq', hb'⟩ := hfinal
  refine ⟨hc', hs', hb', hq', ?_⟩
  rw [hb']
  exact receive_closed_state _ hq' hs'

/-- Witness for C4: drop the only sender, observe closure, then keep calling
`receive`; the sentinel persists. -/
theorem closed_terminal_witness :
    (run (init Nat) ([Event.dropSender, Event.receive] ++ [Event.receive])).closedSeen = true
    ∧ (run (init Nat) ([Event.dropSender, Event.receive] ++ [Event.receive])).inner.senders = 0
    ∧ (run (init Nat) ([Event.dropSender, Event.receive] ++ [Event.receive])).buffer = []
    ∧ (run (init Nat) ([Event.dropSender, Event.receive] ++ [Event.receive])).inner.queue = []
    ∧ Receiver.receive
        (run (init Nat) ([Event.dropSender, Event.receive] ++ [Event.receive])).inner
        (run (init Nat) ([Event.dropSender, Event.receive] ++ [Event.receive])).buffer
        = ((run (init Nat) ([Event.dropSender, Event.receive] ++ [Event.receive])).inner,
           (run (init Nat) ([Event.dropSender, Event.receive] ++ [Event.receive])).buffer,
           ReceiveResult.closed) :=
  closed_terminal Nat [Event.dropSender, Event.receive] [Event.receive]
    (by decide) (by decide)

/-- C5 as stated is false: on the state with one sender and a live receiver,
`Drop for Sender` does decrement the count to 0 and does notify exactly once,
but the notification is issued after the lock is released (in
`Sender.dropActions`, `releaseLock` precedes `notifyOne`), not before. -/
theorem drop_signal_counterexample :
    ¬ ((Sender.drop (Inner.mk ([] : List Nat) 1 true)).1.senders
          = (Inner.mk ([] : List Nat) 1 true).senders - 1
       ∧ (Sender.drop (Inner.mk ([] : List Nat) 1 true)).2 = true
       ∧ (Sender.dropActions (Inner.mk ([] : List Nat) 1 true)).indexOf
            DropAction.notifyOne
          < (Sender.dropActions (Inner.mk ([] : List Nat) 1 true)).indexOf
            DropAction.releaseLock) := by
  decide

/-- C5 amended: destroying a Sender (there is a live handle, so
`senders ≠ 0`) decrements `sender_count` by exactly one, and notifies the
wait/notify mechanism exactly once iff the decrement made the count reach 0
while `receiver_alive` is still true — but the notification is issued after
the lock is released, not before. -/
theorem drop_signal (inner : Inner T) (h : inner.senders ≠ 0) :
    (Sender.drop inner).1.senders + 1 = inner.senders
    ∧ ((Sender.drop inner).2 = true
        ↔ inner.senders = 1 ∧ inner.receiver_alive = true)
    ∧ ((Sender.drop inner).2 = true →
        (Sender.dropActions inner).indexOf DropAction.releaseLock
          < (Sender.dropActions inner).indexOf DropAction.notifyOne) := by
  obtain ⟨n, hn⟩ : ∃ n, inner.senders = n + 1 :=
    ⟨inner.senders - 1, (Nat.succ_pred_eq_of_pos (Nat.pos_of_ne_zero h)).symm⟩
  refine ⟨by simp [Sender.drop, hn], ?_, ?_⟩
  · simp only [Sender.drop, Bool.and_eq_true, beq_iff_eq, hn,
      Nat.add_sub_cancel]
    constructor
    · rintro ⟨h0, ha⟩
      exact ⟨by omega, ha⟩
    · rintro ⟨h1, ha⟩
      exact ⟨by omega, ha⟩
  · intro hsig
    have hcond : ((inner.senders - 1 == 0) && inner.receiver_alive) = true := by
      simpa [Sender.drop] using hsig
    simp [Sender.dropActions, hcond, List.indexOf]
    decide

/-- Witness for C5 (amended) at the last live sender of a live-receiver
channel. -/
theorem drop_signal_witness :
    ((Inner.mk ([] : List Nat) 1 true).senders ≠ 0)
    ∧ ((Sender.drop (Inner.mk ([] : List Nat) 1 true)).1.senders + 1
          = (Inner.mk ([] : List Nat) 1 true).senders
       ∧ ((Sender.drop (Inner.mk ([] : List Nat) 1 true)).2 = true
            ↔ (Inner.mk ([] : List Nat) 1 true).senders = 1
              ∧ (Inner.mk ([] : List Nat) 1 true).receiver_alive = true)
       ∧ ((Sender.drop (Inner.mk ([] : List Nat) 1 true)).2 = true →
            (Sender.dropActions (Inner.mk ([] : List Nat) 1 true)).indexOf
                DropAction.releaseLock
              < (Sender.dropActions (Inner.mk ([] : List Nat) 1 true)).indexOf
                DropAction.notifyOne)) :=
  ⟨by decide, drop_signal (Inner.mk ([] : List Nat) 1 true) (by decide)⟩

end Mpsc
